import Mathlib

/-!
# Verification of the notebook document engine and suggestion engine

A shallow embedding, in Lean 4, of the cell model, the plain-text
interchange parser (`parseNotebookFile`), the download serializer
(`downloadNotebook`), the cell store operations (`addCell`, `deleteCell`),
the localStorage persistence round-trip (`saveNotebookToMemory`,
`loadNotebookFromMemory`) and the proactive-suggestion engine
(`updateSuggestionScore`, `selectSuggestion`) of the notebook application,
together with theorems settling the specification's claims about them.

JavaScript strings are modelled by Lean `String`; the ECMAScript string
primitives the source uses (`trim`, `startsWith`, `endsWith`, `split`,
`join`, `includes`, and the `/\*\/\s*$/` replace) are implemented below by
structural recursion over the character list so that every definition
evaluates inside the kernel.
-/

/-- ECMAScript white space (the characters relevant to `trim` and `\s`):
space, tab, line feed, carriage return, vertical tab, form feed. -/
def jsWhitespace (c : Char) : Bool :=
  c = ' ' || c = '\t' || c = '\n' || c = '\r' || c = '\x0b' || c = '\x0c'

/-- Drop leading white space from a character list. -/
def trimLeftChars (l : List Char) : List Char := l.dropWhile jsWhitespace

/-- Drop trailing white space from a character list. -/
def trimRightChars (l : List Char) : List Char :=
  (l.reverse.dropWhile jsWhitespace).reverse

/-- JavaScript `s.trim()`. -/
def jsTrim (s : String) : String :=
  ⟨trimRightChars (trimLeftChars s.data)⟩

/-- JavaScript `s.startsWith(p)`. -/
def jsStartsWith (s p : String) : Bool := p.data.isPrefixOf s.data

/-- JavaScript `s.endsWith(p)`. -/
def jsEndsWith (s p : String) : Bool := p.data.reverse.isPrefixOf s.data.reverse

/-- Split a character list at every occurrence of the character `c`
(JavaScript `split` with a one-character separator). -/
def splitChars (c : Char) : List Char → List (List Char)
  | [] => [[]]
  | x :: xs =>
    match splitChars c xs with
    | [] => [[]]
    | r :: rs => if x = c then [] :: r :: rs else (x :: r) :: rs

/-- JavaScript `content.split('\n')`. -/
def jsSplitNewline (s : String) : List String :=
  (splitChars '\n' s.data).map (fun l => ⟨l⟩)

/-- JavaScript `lines.join(sep)`. -/
def jsJoin (sep : String) (ls : List String) : String :=
  ⟨List.intercalate sep.data (ls.map String.data)⟩

/-- JavaScript `s.includes(sub)` (substring search). -/
def hasSubChars (sub : List Char) : List Char → Bool
  | [] => sub.isEmpty
  | x :: xs => sub.isPrefixOf (x :: xs) || hasSubChars sub xs

/-- JavaScript `s.includes(sub)`. -/
def jsIncludes (s sub : String) : Bool := hasSubChars sub.data s.data

/-- JavaScript `line.replace(/\*\/\s*$/, '')` in the context where the
trimmed line ends with `*/`: everything from that closing `*/` to the end
of the line is removed. -/
def stripCloseMarker (line : String) : String :=
  ⟨((trimRightChars line.data).reverse.drop 2).reverse⟩

/-! ## The cell data model (src/index.tsx) -/

/-- The two cell kinds of the notebook, the strings `'js'` and `'md'`. -/
inductive CellType where
  | js
  | md
deriving DecidableEq, Repr

/-- The `Output` interface: `{type: 'log' | 'error' | 'image', data, mime?}`. -/
inductive OutputType where
  | log
  | error
  | image
deriving DecidableEq, Repr

/-- One execution output attached to a cell. -/
structure Output where
  type : OutputType
  data : String
  mime : Option String := none
deriving DecidableEq, Repr

/-- The record pushed onto `cellsData` by `parseNotebookFile`
(`{type, code, mode?, outputs?}`). -/
structure ParsedCell where
  type : CellType
  code : String
  mode : Option String := none
  outputs : Option (List Output) := none
deriving DecidableEq, Repr

/-! ## The interchange-format parser (src/index.tsx, `parseNotebookFile`) -/

/-- The mutable locals of `parseNotebookFile`, threaded through the
line-by-line loop. -/
structure PState where
  cellsData : List ParsedCell
  jsCodeLines : List String
  mdContent : String
  outputContent : String
  inCodeBlock : Bool
  inMdBlock : Bool
  inOutputBlock : Bool
  mdMode : String
deriving DecidableEq, Repr

/-- The initial parser state. -/
def initPState : PState :=
  { cellsData := [], jsCodeLines := [], mdContent := "", outputContent := ""
    inCodeBlock := false, inMdBlock := false, inOutputBlock := false
    mdMode := "edit" }

/-- The `addJsCell` closure: if any lines were accumulated, push a code
cell whose content is the trimmed join of the lines. -/
def addJsCell (st : PState) : PState :=
  if st.jsCodeLines ≠ [] then
    { st with
      cellsData := st.cellsData ++
        [{ type := .js, code := jsTrim (jsJoin "\n" st.jsCodeLines)
           outputs := some [] }]
      jsCodeLines := [] }
  else st

/-- The `addMdCell` closure: if the accumulated markdown text is non-blank,
push a markdown cell with the current mode. -/
def addMdCell (st : PState) : PState :=
  if jsTrim st.mdContent ≠ "" then
    { st with
      cellsData := st.cellsData ++
        [{ type := .md, code := jsTrim st.mdContent, mode := some st.mdMode }]
      mdContent := "" }
  else st

/-- Append an output to the last code cell of the list (the
`[...cellsData].reverse().find(c => c.type === 'js')` mutation). -/
def attachToLastJs (out : Output) : List ParsedCell → List ParsedCell
  | [] => []
  | c :: rest =>
    if (rest.any fun c => c.type = .js) then c :: attachToLastJs out rest
    else if c.type = .js then
      { c with outputs := some ((c.outputs.getD []) ++ [out]) } :: rest
    else c :: rest

/-- The `addOutput` closure: if the accumulated output text is non-blank
and at least one cell exists, attach one `log` output to the most recent
code cell (if any) and clear the buffer; otherwise leave the state — and
in particular the buffer — unchanged. -/
def addOutput (st : PState) : PState :=
  if jsTrim st.outputContent ≠ "" ∧ st.cellsData ≠ [] then
    { st with
      cellsData :=
        if st.cellsData.any fun c => c.type = .js then
          attachToLastJs { type := .log, data := jsTrim st.outputContent }
            st.cellsData
        else st.cellsData
      outputContent := "" }
  else st

/-- One iteration of the `lines.forEach` loop of `parseNotebookFile`. -/
def parseStep (st : PState) (line : String) : PState :=
  let trimmed := jsTrim line
  if trimmed = "// [CODE STARTS]" then
    let st := addOutput (addMdCell st)
    { st with inCodeBlock := true, inMdBlock := false, inOutputBlock := false }
  else if trimmed = "// [CODE ENDS]" then
    let st := addJsCell st
    { st with inCodeBlock := false }
  else if jsStartsWith trimmed "/* Markdown" then
    let st := addOutput (addJsCell st)
    { st with
      mdMode := if jsIncludes trimmed "(render)" then "render" else "edit"
      inMdBlock := true, inCodeBlock := false, inOutputBlock := false }
  else if jsStartsWith trimmed "/* Output" then
    let st := addMdCell (addJsCell st)
    { st with inOutputBlock := true, inCodeBlock := false, inMdBlock := false }
  else if jsEndsWith trimmed "*/" then
    let contentLine := jsTrim (stripCloseMarker line)
    let st :=
      if contentLine ≠ "" then
        if st.inMdBlock then
          { st with mdContent :=
              st.mdContent ++ (if st.mdContent ≠ "" then "\n" else "") ++ contentLine }
        else if st.inOutputBlock then
          { st with outputContent :=
              st.outputContent ++ (if st.outputContent ≠ "" then "\n" else "") ++ contentLine }
        else st
      else st
    let st := if st.inMdBlock then addMdCell st
              else if st.inOutputBlock then addOutput st
              else st
    { st with inMdBlock := false, inOutputBlock := false }
  else if st.inCodeBlock then
    { st with jsCodeLines := st.jsCodeLines ++ [line] }
  else if st.inMdBlock then
    { st with mdContent :=
        st.mdContent ++ (if st.mdContent ≠ "" then "\n" else "") ++ line }
  else if st.inOutputBlock then
    { st with outputContent :=
        st.outputContent ++ (if st.outputContent ≠ "" then "\n" else "") ++ line }
  else st

/-- Parse a list of lines: run the loop, then the final
`addJsCell(); addMdCell(); addOutput();` flush, and return `cellsData`. -/
def parseLines (lines : List String) : List ParsedCell :=
  (addOutput (addMdCell (addJsCell (lines.foldl parseStep initPState)))).cellsData

/-- `parseNotebookFile(content)`: split on newlines and parse. -/
def parseNotebookFile (content : String) : List ParsedCell :=
  parseLines (jsSplitNewline content)

/-! ## The cell store (src/index.tsx, `addCell` / `deleteCell`) -/

/-- A live notebook cell, as built by `addCell`.  The source assigns the
string id `cell-${cellCounter++}`; since the id is determined by the
counter value, it is modelled by that `Nat`. -/
structure Cell where
  id : Nat
  type : CellType
  code : String
  outputs : List Output
  mode : Option String
  isOutputVisible : Bool
  isExecuted : Bool
  lastExecutedContent : Option String
deriving DecidableEq, Repr

/-- The cell record `addCell` constructs from its arguments and the current
counter value. -/
def mkCell (counter : Nat) (code : String) (type : CellType) (renderMd : Bool)
    (initialOutputs : List Output) : Cell :=
  { id := counter
    type := type
    code := code
    outputs := initialOutputs
    mode := if type = .md then some (if renderMd then "render" else "edit") else none
    isOutputVisible := initialOutputs.length > 0
    isExecuted := initialOutputs.length > 0
    lastExecutedContent := if type = .js then some code else none }

/-- The module-level mutable state `cellCounter` / `cells`. -/
structure StoreState where
  cellCounter : Nat
  cells : List Cell
deriving DecidableEq, Repr

/-- `addCell`: append a fresh cell at the end and bump the counter. -/
def addCell (st : StoreState) (code : String) (type : CellType)
    (renderMd : Bool) (initialOutputs : List Output) : StoreState :=
  { cellCounter := st.cellCounter + 1
    cells := st.cells ++ [mkCell st.cellCounter code type renderMd initialOutputs] }

/-- `deleteCell`: `findIndex` on the id followed by `splice(index, 1)` —
remove the first cell with the given id, a no-op when none matches. -/
def deleteCell (st : StoreState) (cellId : Nat) : StoreState :=
  { st with cells := st.cells.eraseP (fun c => c.id == cellId) }

/-- The arguments of one `addCell` call. -/
structure CellSpec where
  code : String
  type : CellType
  renderMd : Bool
  initialOutputs : List Output
deriving DecidableEq, Repr

/-- One store mutation: an `addCell` call or a `deleteCell` call. -/
inductive StoreOp where
  | insert (spec : CellSpec)
  | remove (id : Nat)
deriving DecidableEq, Repr

/-- Apply one store operation. -/
def applyOp (st : StoreState) : StoreOp → StoreState
  | .insert s => addCell st s.code s.type s.renderMd s.initialOutputs
  | .remove i => deleteCell st i

/-- Run a sequence of store operations. -/
def runOps (ops : List StoreOp) (st : StoreState) : StoreState :=
  ops.foldl applyOp st

/-- Spec-side characterization (from the spec's words, to be compared with
`runOps`): the inserted cells that are not removed afterwards, in insertion
order, where the cell inserted when the counter is `k` gets id `k`. -/
def survivors (k : Nat) : List StoreOp → List Cell
  | [] => []
  | .insert s :: ops =>
    (if StoreOp.remove k ∈ ops then []
     else [mkCell k s.code s.type s.renderMd s.initialOutputs]) ++
      survivors (k + 1) ops
  | .remove _ :: ops => survivors k ops

/-! ## The download serializer (src/index.tsx, `downloadNotebook`) -/

/-- The string the source interpolates for `cell.type`. -/
def cellTypeName : CellType → String
  | .js => "js"
  | .md => "md"

/-- The text `downloadNotebook` writes into the exported file:
``/* Type: ${cell.type} */\n${code}`` per cell, joined with `\n\n---\n\n`,
where `code` is the live editor value when an editor exists for the cell
and `cell.code` otherwise. -/
def downloadNotebookContent (editors : Nat → Option String)
    (cells : List Cell) : String :=
  jsJoin "\n\n---\n\n"
    (cells.map fun c =>
      "/* Type: " ++ cellTypeName c.type ++ " */\n" ++ (editors c.id).getD c.code)

/-! ## Persistence: save (src/index.tsx, `saveNotebookToMemory`) -/

/-- The record saved per cell (`{id, type, code, mode, outputs}`). -/
structure SavedCellRecord where
  id : Nat
  type : CellType
  code : String
  mode : Option String
  outputs : List Output
deriving DecidableEq, Repr

/-- The application state `saveNotebookToMemory` touches: the in-memory
cells, the localStorage slot under the notebook key, and the console
error log. -/
structure NotebookAppState where
  cells : List Cell
  storage : Option (List SavedCellRecord)
  consoleErrors : List String
deriving DecidableEq, Repr

/-- One saved record: `code` is `monacoInstances[cell.id]?.getValue() ?? cell.code`. -/
def snapshotCell (editors : Nat → Option String) (c : Cell) : SavedCellRecord :=
  { id := c.id
    type := c.type
    code := (editors c.id).getD c.code
    mode := c.mode
    outputs := c.outputs }

/-- The `try` body of `saveNotebookToMemory`: build the snapshot and call
`localStorage.setItem`, which may throw (for instance on quota exhaustion);
`writeFails` says whether the write throws. -/
def saveNotebookBody (editors : Nat → Option String) (st : NotebookAppState)
    (writeFails : Bool) : Except String NotebookAppState :=
  let snapshot := st.cells.map (snapshotCell editors)
  if writeFails then .error "Failed to save notebook to memory:"
  else .ok { st with storage := some snapshot }

/-- `saveNotebookToMemory`: run the body; a thrown storage error is caught
and written to the console log, and the function returns normally. -/
def saveNotebookToMemory (editors : Nat → Option String)
    (st : NotebookAppState) (writeFails : Bool) : NotebookAppState :=
  match saveNotebookBody editors st writeFails with
  | .ok st' => st'
  | .error e => { st with consoleErrors := st.consoleErrors ++ [e] }

/-! ## Persistence: load (src/index.tsx, `loadNotebookFromMemory`) -/

/-- A JSON value, as produced by a successful `JSON.parse`. -/
inductive Json where
  | null
  | bool (b : Bool)
  | num (n : Int)
  | str (s : String)
  | arr (elems : List Json)
  | obj (fields : List (String × Json))

/-- Whether a JSON value is `null` (property access on it throws). -/
def Json.isNull : Json → Bool
  | .null => true
  | _ => false

/-- JavaScript property access `v.name` on a parsed JSON value: it throws
(`.error`) when `v` is `null`, returns the field on an object that has it,
and yields `undefined` (`none`) otherwise. -/
def jsGetField : Json → String → Except Unit (Option Json)
  | .null, _ => .error ()
  | .obj fs, name => .ok ((fs.find? fun f => f.1 == name).map Prod.snd)
  | _, _ => .ok none

/-- Whether `v.cells` exists, is truthy and passes `Array.isArray`. -/
def hasCellsArray (j : Json) : Bool :=
  match jsGetField j "cells" with
  | .ok (some (.arr _)) => true
  | _ => false

/-- The observable outcome of one `loadNotebookFromMemory()` call:
the boolean it returns, whether it called `localStorage.removeItem` on the
notebook key, and the cell records it passed to `addCell`. -/
structure LoadResult where
  returned : Bool
  keyRemoved : Bool
  loadedCells : List Json

/-- The `try` body of `loadNotebookFromMemory`, for an already decoded
value: read `notebookState.cells` (which throws on `null`), check
`Array.isArray`, then feed each entry to `addCell` — reading `.code` of a
`null` entry throws.  An `.error` carries the entries added before the
throw. -/
def loadBody (parsed : Json) : Except (List Json) LoadResult :=
  match jsGetField parsed "cells" with
  | .error _ => .error []
  | .ok (some (.arr entries)) =>
    if entries.any Json.isNull then
      .error (entries.takeWhile fun e => !e.isNull)
    else .ok { returned := true, keyRemoved := false, loadedCells := entries }
  | .ok _ => .ok { returned := false, keyRemoved := false, loadedCells := [] }

/-- `loadNotebookFromMemory`: `stored` is the value under the notebook key
(`none` when the key was never set); a stored string that `JSON.parse`
rejects is `some (.error ())`, one it decodes is `some (.ok v)`.  A throw
inside the `try` is caught, the key is removed, and `false` is returned. -/
def loadNotebookFromMemory (stored : Option (Except Unit Json)) : LoadResult :=
  match stored with
  | none => { returned := false, keyRemoved := false, loadedCells := [] }
  | some (.error _) => { returned := false, keyRemoved := true, loadedCells := [] }
  | some (.ok parsed) =>
    match loadBody parsed with
    | .ok r => r
    | .error added => { returned := false, keyRemoved := true, loadedCells := added }

/-! ## The proactive suggestion engine (src/unnamed/part_000) -/

/-- The `ProactiveSuggestion` interface. -/
structure ProactiveSuggestion where
  id : String
  trigger : String
  suggestion : String
  score : Int
deriving DecidableEq, Repr

/-- `suggestionMemory`, a `Map<string, ProactiveSuggestion[]>`, modelled as
an association list in key-insertion order. -/
abbrev SuggestionMemory : Type := List (String × List ProactiveSuggestion)

/-- `suggestionMemory.get(trigger)`. -/
def memGet (mem : SuggestionMemory) (trigger : String) :
    Option (List ProactiveSuggestion) :=
  (mem.find? fun e => e.1 == trigger).map Prod.snd

/-- Update the first element satisfying `p` (a JavaScript in-place mutation
of the object `find` returned). -/
def updateFirst (p : α → Bool) (f : α → α) : List α → List α
  | [] => []
  | x :: xs => if p x then f x :: xs else x :: updateFirst p f xs

/-- Replace the list stored under `trigger` (the in-place mutation of the
array `Map.get` returned). -/
def memUpdate (mem : SuggestionMemory) (trigger : String)
    (l : List ProactiveSuggestion) : SuggestionMemory :=
  updateFirst (fun e => e.1 == trigger) (fun e => (e.1, l)) mem

/-- `aiPreferences.dislikedSuggestions.add(s)` on the `Set` of snippets. -/
def dislikeAdd (dislikes : List String) (s : String) : List String :=
  if dislikes.contains s then dislikes else dislikes ++ [s]

/-- The state `updateSuggestionScore` touches: the suggestion memory, the
dislike set, and the number of `saveSuggestionMemory()` persistence calls. -/
structure SuggestionSystemState where
  memory : SuggestionMemory
  disliked : List String
  savedCount : Nat
deriving DecidableEq, Repr

/-- `updateSuggestionScore(suggestionId, trigger, delta)`: a missing
trigger returns immediately; a missing id skips the update; otherwise the
found suggestion's score becomes `Math.max(1, score + delta)`, a negative
delta records the snippet in the dislike set, and the memory is saved. -/
def updateSuggestionScore (st : SuggestionSystemState)
    (suggestionId trigger : String) (delta : Int) : SuggestionSystemState :=
  match memGet st.memory trigger with
  | none => st
  | some suggestions =>
    match suggestions.find? fun s => s.id == suggestionId with
    | none => st
    | some found =>
      { memory := memUpdate st.memory trigger
          (updateFirst (fun s => s.id == suggestionId)
            (fun s => { s with score := max 1 (s.score + delta) }) suggestions)
        disliked := if delta < 0 then dislikeAdd st.disliked found.suggestion
                    else st.disliked
        savedCount := st.savedCount + 1 }

/-- A sequence of `updateSuggestionScore` calls
(`(suggestionId, trigger, delta)` triples). -/
def runScoreUpdates (st : SuggestionSystemState)
    (calls : List (String × String × Int)) : SuggestionSystemState :=
  calls.foldl (fun st c => updateSuggestionScore st c.1 c.2.1 c.2.2) st

/-- The weighted walk of `selectSuggestion`: subtract each score from the
running point and return the first suggestion at which it drops to `≤ 0`. -/
def walkWeights (point : ℚ) : List ProactiveSuggestion → Option ProactiveSuggestion
  | [] => none
  | s :: rest =>
    if point - (s.score : ℚ) ≤ 0 then some s
    else walkWeights (point - (s.score : ℚ)) rest

/-- `selectSuggestion(suggestions)`: filter out disliked snippets, then
weighted random sampling; `randomDraw` stands for the `Math.random()`
value, so the walk starts at `randomDraw * totalScore`, and the loop's
fallback is `validSuggestions[0]`. -/
def selectSuggestion (randomDraw : ℚ) (suggestions : List ProactiveSuggestion)
    (disliked : List String) : Option ProactiveSuggestion :=
  let valid := suggestions.filter fun s => !(disliked.contains s.suggestion)
  if valid = [] then none
  else
    let totalScore : ℚ := valid.foldl (fun sum s => sum + (s.score : ℚ)) 0
    match walkWeights (randomDraw * totalScore) valid with
    | some s => some s
    | none => valid.head?

/-- A line that matches none of the grammar's markers. -/
def markerFree (l : String) : Prop :=
  jsTrim l ≠ "// [CODE STARTS]" ∧ jsTrim l ≠ "// [CODE ENDS]" ∧
  jsStartsWith (jsTrim l) "/* Markdown" = false ∧
  jsStartsWith (jsTrim l) "/* Output" = false ∧
  jsEndsWith (jsTrim l) "*/" = false

instance (l : String) : Decidable (markerFree l) := by
  unfold markerFree; infer_instance

/-- Every score in the suggestion memory is at least 1. -/
def allScoresAtLeastOne (mem : SuggestionMemory) : Prop :=
  ∀ e ∈ mem, ∀ s ∈ e.2, 1 ≤ s.score

instance (mem : SuggestionMemory) : Decidable (allScoresAtLeastOne mem) := by
  unfold allScoresAtLeastOne; infer_instance

/-! ## Theorems -/

/-- C4: parsing the six-line text `// [CODE STARTS]` / `let x = 1;` /
`// [CODE ENDS]` / `/* Output` / `hello` / `*/` yields exactly one cell, a
code cell with content `let x = 1;` carrying one log output `hello`. -/
theorem C4_parse_code_then_output_scenario :
    parseNotebookFile
      "// [CODE STARTS]\nlet x = 1;\n// [CODE ENDS]\n/* Output\nhello\n*/" =
    [{ type := .js, code := "let x = 1;"
       outputs := some [{ type := .log, data := "hello" }] }] := by decide

/-- C1: the round-trip fails on the code. Serializing the single code cell
`let x = 1;` with `downloadNotebook`'s format and parsing the result with
`parseNotebookFile` yields no cells at all, not the original cell. -/
theorem C1_roundtrip_fails_on_download_format :
    parseNotebookFile
      (downloadNotebookContent (fun _ => none)
        [mkCell 0 "let x = 1;" CellType.js false []]) = [] := by decide

/-- C2 counterexample: an output block parsed before any code cell is not
dropped — its content stays in the buffer and attaches to the code cell
emitted later, so parsing output-then-code yields the code cell `x`
carrying the log output `hello`. -/
theorem C2_counterexample_output_before_code_not_dropped :
    parseNotebookFile
      "/* Output\nhello\n*/\n// [CODE STARTS]\nx\n// [CODE ENDS]" =
    [{ type := .js, code := "x"
       outputs := some [{ type := .log, data := "hello" }] }] := by decide

/-- C3 counterexample: a code block containing only a blank line emits one
code cell with empty content, not zero cells. -/
theorem C3_counterexample_blank_line_block_emits_cell :
    parseNotebookFile "// [CODE STARTS]\n\n// [CODE ENDS]" =
    [{ type := .js, code := "", outputs := some [] }] := by decide

/-- Joining a single line with newlines is the identity. -/
theorem jsJoin_singleton (s : String) : jsJoin "\n" [s] = s := by
  simp [jsJoin, List.intercalate]

/-- `parseStep` on the literal `// [CODE ENDS]` closes the code block. -/
theorem parseStep_codeEnds (st : PState) :
    parseStep st "// [CODE ENDS]" = { addJsCell st with inCodeBlock := false } := rfl

/-- `parseStep` on the literal `// [CODE STARTS]` flushes and opens a code
block. -/
theorem parseStep_codeStarts (st : PState) :
    parseStep st "// [CODE STARTS]" =
      { addOutput (addMdCell st) with
        inCodeBlock := true, inMdBlock := false, inOutputBlock := false } := rfl

/-- `parseStep` on the literal `/* Output` flushes and opens an output
block. -/
theorem parseStep_outputStarts (st : PState) :
    parseStep st "/* Output" =
      { addMdCell (addJsCell st) with
        inOutputBlock := true, inCodeBlock := false, inMdBlock := false } := rfl

/-- `parseStep` on a bare `*/` line closes the current markdown or output
block without appending a content line. -/
theorem parseStep_closeOnly (st : PState) :
    parseStep st "*/" =
      { (if st.inMdBlock then addMdCell st
         else if st.inOutputBlock then addOutput st else st) with
        inMdBlock := false, inOutputBlock := false } := rfl

/-- `parseStep` on a marker-free line appends it to whichever block is
open and ignores it otherwise. -/
theorem parseStep_plain (st : PState) (l : String) (h : markerFree l) :
    parseStep st l =
      if st.inCodeBlock then { st with jsCodeLines := st.jsCodeLines ++ [l] }
      else if st.inMdBlock then
        { st with mdContent :=
            st.mdContent ++ (if st.mdContent ≠ "" then "\n" else "") ++ l }
      else if st.inOutputBlock then
        { st with outputContent :=
            st.outputContent ++ (if st.outputContent ≠ "" then "\n" else "") ++ l }
      else st := by
  obtain ⟨h1, h2, h3, h4, h5⟩ := h
  simp only [parseStep, h1, h2, h3, h4, h5]
  simp

/-- C3 (amended): closing a code block that accumulated no lines emits no
cell — in particular `// [CODE STARTS]` immediately followed by
`// [CODE ENDS]` yields zero cells — but closing a block that accumulated
at least one line always emits a code cell whose content is the trimmed
join of the lines, so a block of only blank lines emits a cell with empty
content. -/
theorem C3_amended_empty_code_block :
    (∀ st : PState, st.jsCodeLines = [] →
      (parseStep st "// [CODE ENDS]").cellsData = st.cellsData) ∧
    (∀ st : PState, st.jsCodeLines ≠ [] →
      (parseStep st "// [CODE ENDS]").cellsData = st.cellsData ++
        [{ type := .js, code := jsTrim (jsJoin "\n" st.jsCodeLines)
           outputs := some [] }]) ∧
    parseNotebookFile "// [CODE STARTS]\n// [CODE ENDS]" = [] := by
  refine ⟨?_, ?_, by decide⟩
  · intro st h
    rw [parseStep_codeEnds]
    simp [addJsCell, h]
  · intro st h
    rw [parseStep_codeEnds]
    simp [addJsCell, h]

/-- Witness for C3 (amended) at concrete states: the empty block emits
nothing, a block holding one blank line emits one empty code cell. -/
theorem C3_amended_empty_code_block_witness :
    (parseStep initPState "// [CODE ENDS]").cellsData = initPState.cellsData ∧
    (parseStep { initPState with jsCodeLines := [""] } "// [CODE ENDS]").cellsData =
      [{ type := .js, code := "", outputs := some [] }] := by
  constructor
  · exact C3_amended_empty_code_block.1 initPState rfl
  · rw [C3_amended_empty_code_block.2.1 { initPState with jsCodeLines := [""] }
      (by decide)]
    decide

/-- C2 (amended): an output block flushes as one log output on the most
recent code cell when the flush finds one; when cells exist but none is a
code cell the buffered text is dropped; but when no cell at all has been
emitted yet the buffer is left untouched rather than dropped (so it can
attach to a code cell emitted later); and after two consecutive code
blocks an output block attaches to the second code cell. -/
theorem C2_amended_output_attachment :
    (∀ st : PState, st.cellsData = [] → addOutput st = st) ∧
    (∀ st : PState, jsTrim st.outputContent ≠ "" → st.cellsData ≠ [] →
      (st.cellsData.any fun c => c.type = .js) = false →
      addOutput st = { st with outputContent := "" }) ∧
    (∀ c1 c2 o : String, markerFree c1 → markerFree c2 → markerFree o →
      jsTrim o ≠ "" →
      parseLines ["// [CODE STARTS]", c1, "// [CODE ENDS]",
          "// [CODE STARTS]", c2, "// [CODE ENDS]", "/* Output", o, "*/"] =
        [{ type := .js, code := jsTrim c1, outputs := some [] },
         { type := .js, code := jsTrim c2
           outputs := some [{ type := .log, data := jsTrim o }] }]) := by
  refine ⟨?_, ?_, ?_⟩
  · intro st h
    simp [addOutput, h]
  · intro st h1 h2 h3
    simp only [addOutput, h3]
    rw [if_pos ⟨h1, h2⟩]
    simp
  · intro c1 c2 o hc1 hc2 ho hne
    have p1 : parseStep ⟨[], [], "", "", true, false, false, "edit"⟩ c1 =
        ⟨[], [c1], "", "", true, false, false, "edit"⟩ := by
      rw [parseStep_plain _ _ hc1]
      rfl
    have p2 : parseStep ⟨[], [c1], "", "", true, false, false, "edit"⟩
          "// [CODE ENDS]" =
        ⟨[{ type := .js, code := jsTrim c1, outputs := some [] }],
          [], "", "", false, false, false, "edit"⟩ := by
      rw [parseStep_codeEnds]
      simp [addJsCell, jsJoin_singleton]
    have p4 : parseStep
          ⟨[{ type := .js, code := jsTrim c1, outputs := some [] }],
            [], "", "", true, false, false, "edit"⟩ c2 =
        ⟨[{ type := .js, code := jsTrim c1, outputs := some [] }],
          [c2], "", "", true, false, false, "edit"⟩ := by
      rw [parseStep_plain _ _ hc2]
      rfl
    have p5 : parseStep
          ⟨[{ type := .js, code := jsTrim c1, outputs := some [] }],
            [c2], "", "", true, false, false, "edit"⟩ "// [CODE ENDS]" =
        ⟨[{ type := .js, code := jsTrim c1, outputs := some [] },
          { type := .js, code := jsTrim c2, outputs := some [] }],
          [], "", "", false, false, false, "edit"⟩ := by
      rw [parseStep_codeEnds]
      simp [addJsCell, jsJoin_singleton]
    have p7 : parseStep
          ⟨[{ type := .js, code := jsTrim c1, outputs := some [] },
            { type := .js, code := jsTrim c2, outputs := some [] }],
            [], "", "", false, false, true, "edit"⟩ o =
        ⟨[{ type := .js, code := jsTrim c1, outputs := some [] },
          { type := .js, code := jsTrim c2, outputs := some [] }],
          [], "", o, false, false, true, "edit"⟩ := by
      rw [parseStep_plain _ _ ho]
      rfl
    have p8 : parseStep
          ⟨[{ type := .js, code := jsTrim c1, outputs := some [] },
            { type := .js, code := jsTrim c2, outputs := some [] }],
            [], "", o, false, false, true, "edit"⟩ "*/" =
        ⟨[{ type := .js, code := jsTrim c1, outputs := some [] },
          { type := .js, code := jsTrim c2
            outputs := some [{ type := .log, data := jsTrim o }] }],
          [], "", "", false, false, false, "edit"⟩ := by
      rw [parseStep_closeOnly]
      simp [addOutput, attachToLastJs, hne]
    simp only [parseLines, List.foldl_cons, List.foldl_nil]
    rw [show parseStep initPState "// [CODE STARTS]" =
        ⟨[], [], "", "", true, false, false, "edit"⟩ from rfl]
    rw [p1, p2]
    rw [show parseStep
        ⟨[{ type := .js, code := jsTrim c1, outputs := some [] }],
          [], "", "", false, false, false, "edit"⟩ "// [CODE STARTS]" =
        ⟨[{ type := .js, code := jsTrim c1, outputs := some [] }],
          [], "", "", true, false, false, "edit"⟩ from rfl]
    rw [p4, p5]
    rw [show parseStep
        ⟨[{ type := .js, code := jsTrim c1, outputs := some [] },
          { type := .js, code := jsTrim c2, outputs := some [] }],
          [], "", "", false, false, false, "edit"⟩ "/* Output" =
        ⟨[{ type := .js, code := jsTrim c1, outputs := some [] },
          { type := .js, code := jsTrim c2, outputs := some [] }],
          [], "", "", false, false, true, "edit"⟩ from rfl]
    rw [p7, p8]
    rfl

/-- Witness for C2 (amended) at concrete inputs: an untouched buffer when
no cell exists, a dropped buffer when only a markdown cell exists, and the
two-code-block scenario with lines `a`, `b` and output `out`. -/
theorem C2_amended_output_attachment_witness :
    addOutput { initPState with outputContent := "hello" } =
      { initPState with outputContent := "hello" } ∧
    addOutput ⟨[{ type := .md, code := "m", mode := some "edit" }],
        [], "", "hi", false, false, false, "edit"⟩ =
      ⟨[{ type := .md, code := "m", mode := some "edit" }],
        [], "", "", false, false, false, "edit"⟩ ∧
    parseLines ["// [CODE STARTS]", "a", "// [CODE ENDS]",
        "// [CODE STARTS]", "b", "// [CODE ENDS]", "/* Output", "out", "*/"] =
      [{ type := .js, code := "a", outputs := some [] },
       { type := .js, code := "b"
         outputs := some [{ type := .log, data := "out" }] }] := by
  refine ⟨C2_amended_output_attachment.1 _ rfl, ?_, ?_⟩
  · exact C2_amended_output_attachment.2.1
      ⟨[{ type := .md, code := "m", mode := some "edit" }],
        [], "", "hi", false, false, false, "edit"⟩
      (by decide) (by decide) (by decide)
  · rw [C2_amended_output_attachment.2.2 "a" "b" "out"
      (by decide) (by decide) (by decide) (by decide)]
    decide

/-- Erasing the (by id-uniqueness unique) cell with id `i` and then
filtering is the same as filtering with the id additionally excluded. -/
theorem filter_eraseP_remove (i : Nat) (ops : List StoreOp) :
    ∀ cs : List Cell, (cs.map Cell.id).Nodup →
      cs.filter (fun c => decide (StoreOp.remove c.id ∉ (StoreOp.remove i :: ops))) =
        (cs.eraseP (fun c => c.id == i)).filter
          (fun c => decide (StoreOp.remove c.id ∉ ops)) := by
  intro cs
  induction cs with
  | nil => simp
  | cons c cs ih =>
    intro h2
    have h2c : c.id ∉ cs.map Cell.id ∧ (cs.map Cell.id).Nodup :=
      List.nodup_cons.mp (by simpa using h2)
    have h2' : (cs.map Cell.id).Nodup := h2c.2
    by_cases hci : c.id = i
    · have hid : i ∉ cs.map Cell.id := hci ▸ h2c.1
      rw [List.eraseP_cons_of_pos (by simp [hci])]
      rw [List.filter_cons]
      simp only [hci]
      simp only [List.mem_cons, not_or, decide_eq_true_eq]
      rw [if_neg (by simp)]
      refine List.filter_congr ?_
      intro x hx
      have hxid : x.id ≠ i := by
        intro hcontra
        exact hid (hcontra ▸ List.mem_map_of_mem Cell.id hx)
      simp [hxid]
    · rw [List.eraseP_cons_of_neg (by simp [hci])]
      rw [List.filter_cons, List.filter_cons]
      have hpred : (decide (StoreOp.remove c.id ∉ (StoreOp.remove i :: ops))) =
          (decide (StoreOp.remove c.id ∉ ops)) := by
        simp [hci]
      rw [hpred, ih h2']

/-- Running store operations from any well-formed state (all ids below the
counter, ids distinct) yields the still-present old cells followed by the
surviving newly inserted ones. -/
theorem runOps_cells_eq (ops : List StoreOp) :
    ∀ (k : Nat) (cs : List Cell),
      (∀ c ∈ cs, c.id < k) → (cs.map Cell.id).Nodup →
      (runOps ops ⟨k, cs⟩).cells =
        cs.filter (fun c => decide (StoreOp.remove c.id ∉ ops)) ++ survivors k ops := by
  induction ops with
  | nil =>
    intro k cs h1 h2
    simp [runOps, survivors]
  | cons op ops ih =>
    intro k cs h1 h2
    cases op with
    | insert s =>
      have hrun : runOps (StoreOp.insert s :: ops) ⟨k, cs⟩ =
          runOps ops ⟨k + 1, cs ++ [mkCell k s.code s.type s.renderMd s.initialOutputs]⟩ := rfl
      have h1' : ∀ c ∈ cs ++ [mkCell k s.code s.type s.renderMd s.initialOutputs],
          c.id < k + 1 := by
        intro c hc
        rcases List.mem_append.mp hc with hc | hc
        · exact Nat.lt_succ_of_lt (h1 c hc)
        · simp only [List.mem_singleton] at hc
          subst hc
          simp [mkCell]
      have h2' : ((cs ++ [mkCell k s.code s.type s.renderMd s.initialOutputs]).map
          Cell.id).Nodup := by
        rw [List.map_append]
        refine List.Nodup.append h2 (by simp) ?_
        intro a ha hb
        simp only [List.map_cons, List.map_nil, List.mem_singleton, mkCell] at hb
        rcases List.mem_map.mp ha with ⟨c, hc, rfl⟩
        exact absurd hb (Nat.ne_of_lt (h1 c hc))
      rw [hrun, ih (k + 1) _ h1' h2']
      rw [List.filter_append]
      have hmem : ∀ c : Cell,
          (decide (StoreOp.remove c.id ∉ (StoreOp.insert s :: ops))) =
            (decide (StoreOp.remove c.id ∉ ops)) := by
        intro c; simp
      simp only [hmem]
      show _ ++ _ ++ _ = _ ++ survivors k (StoreOp.insert s :: ops)
      rw [show survivors k (StoreOp.insert s :: ops) =
        (if StoreOp.remove k ∈ ops then []
         else [mkCell k s.code s.type s.renderMd s.initialOutputs]) ++
          survivors (k + 1) ops from rfl]
      rw [List.append_assoc]
      congr 1
      congr 1
      by_cases hk : StoreOp.remove k ∈ ops
      · simp [hk, mkCell]
      · simp [hk, mkCell]
    | remove i =>
      have hrun : runOps (StoreOp.remove i :: ops) ⟨k, cs⟩ =
          runOps ops ⟨k, cs.eraseP (fun c => c.id == i)⟩ := rfl
      have hsub : List.Sublist (cs.eraseP (fun c => c.id == i)) cs :=
        List.eraseP_sublist cs
      have h1' : ∀ c ∈ cs.eraseP (fun c => c.id == i), c.id < k :=
        fun c hc => h1 c (hsub.mem hc)
      have h2' : ((cs.eraseP (fun c => c.id == i)).map Cell.id).Nodup :=
        (hsub.map Cell.id).nodup h2
      rw [hrun, ih k _ h1' h2']
      rw [show survivors k (StoreOp.remove i :: ops) = survivors k ops from rfl]
      rw [filter_eraseP_remove i ops cs h2]

/-- C5: starting from the empty store, any sequence of insert and remove
operations leaves exactly the inserted cells that were not subsequently
removed, in insertion order. -/
theorem C5_store_order (ops : List StoreOp) :
    (runOps ops ⟨0, []⟩).cells = survivors 0 ops := by
  simpa using runOps_cells_eq ops 0 [] (by simp) (by simp)

/-- C6 counterexample: the stored string `"{}"` decodes to an object
without a `cells` array; `load()` returns absent but does **not** delete
the key, contrary to the claim. -/
theorem C6_counterexample_validation_failure_keeps_key :
    loadNotebookFromMemory (some (.ok (Json.obj []))) =
      { returned := false, keyRemoved := false, loadedCells := [] } := rfl

/-- C6 (amended): `load()` never throws and always returns absent on bad
data, but the key is deleted only when the decode itself throws (or the
decoded value is `null`, whose property access throws); a decoded non-null
value without an array `cells` field leaves the key in place. -/
theorem C6_amended_load_never_throws :
    loadNotebookFromMemory none =
      { returned := false, keyRemoved := false, loadedCells := [] } ∧
    loadNotebookFromMemory (some (.error ())) =
      { returned := false, keyRemoved := true, loadedCells := [] } ∧
    loadNotebookFromMemory (some (.ok .null)) =
      { returned := false, keyRemoved := true, loadedCells := [] } ∧
    (∀ j : Json, j ≠ .null → hasCellsArray j = false →
      loadNotebookFromMemory (some (.ok j)) =
        { returned := false, keyRemoved := false, loadedCells := [] }) := by
  refine ⟨rfl, rfl, rfl, ?_⟩
  intro j hnull hno
  cases j with
  | null => exact absurd rfl hnull
  | bool b => rfl
  | num n => rfl
  | str s => rfl
  | arr es => rfl
  | obj fs =>
    simp only [loadNotebookFromMemory, loadBody, jsGetField]
    rcases hf : fs.find? (fun f => f.1 == "cells") with _ | ⟨k, v⟩
    · simp [hf]
    · rcases v with _ | b | n | s | es | gs
      · simp [hf]
      · simp [hf]
      · simp [hf]
      · simp [hf]
      · exfalso
        simp [hasCellsArray, jsGetField, hf] at hno
      · simp [hf]

/-- Witness for C6 (amended): a stored numeric JSON document returns
absent without touching the key. -/
theorem C6_amended_load_never_throws_witness :
    loadNotebookFromMemory (some (.ok (Json.num 5))) =
      { returned := false, keyRemoved := false, loadedCells := [] } :=
  C6_amended_load_never_throws.2.2.2 (Json.num 5) (by simp) rfl

/-- C7: `saveNotebookToMemory` never changes the in-memory cells, and a
storage-write failure is caught, logged to the console, and otherwise
leaves the state (including the stored snapshot) untouched — the call
returns normally instead of propagating the error. -/
theorem C7_save_failure_nonfatal (editors : Nat → Option String)
    (st : NotebookAppState) (writeFails : Bool) :
    (saveNotebookToMemory editors st writeFails).cells = st.cells ∧
    (writeFails = true →
      saveNotebookToMemory editors st writeFails =
        { st with consoleErrors :=
            st.consoleErrors ++ ["Failed to save notebook to memory:"] }) := by
  constructor
  · cases writeFails <;> rfl
  · intro h
    subst h
    rfl

/-- Witness for C7 at a concrete state and a failing write. -/
theorem C7_save_failure_nonfatal_witness :
    saveNotebookToMemory (fun _ => none) ⟨[], none, []⟩ true =
      ⟨[], none, ["Failed to save notebook to memory:"]⟩ :=
  (C7_save_failure_nonfatal (fun _ => none) ⟨[], none, []⟩ true).2 rfl

/-- Every element of `updateFirst p f l` is an element of `l` or the image
under `f` of one. -/
theorem mem_updateFirst (p : α → Bool) (f : α → α) :
    ∀ (l : List α) (x : α), x ∈ updateFirst p f l → x ∈ l ∨ ∃ y ∈ l, x = f y := by
  intro l
  induction l with
  | nil => intro x hx; simp [updateFirst] at hx
  | cons a l ih =>
    intro x hx
    simp only [updateFirst] at hx
    by_cases hpa : p a
    · rw [if_pos hpa] at hx
      rcases List.mem_cons.mp hx with h | h
      · exact Or.inr ⟨a, List.mem_cons_self a l, h⟩
      · exact Or.inl (List.mem_cons_of_mem a h)
    · rw [if_neg hpa] at hx
      rcases List.mem_cons.mp hx with h | h
      · exact Or.inl (h ▸ List.mem_cons_self a l)
      · rcases ih x h with h' | ⟨y, hy, hxy⟩
        · exact Or.inl (List.mem_cons_of_mem a h')
        · exact Or.inr ⟨y, List.mem_cons_of_mem a hy, hxy⟩

/-- A successful `memGet` returns the list stored in some entry. -/
theorem memGet_mem {mem : SuggestionMemory} {trig : String}
    {l : List ProactiveSuggestion} (h : memGet mem trig = some l) :
    ∃ e ∈ mem, e.2 = l := by
  unfold memGet at h
  rcases hf : mem.find? (fun e => e.1 == trig) with _ | e
  · rw [hf] at h; cases h
  · rw [hf] at h
    simp only [Option.map] at h
    cases h
    exact ⟨e, List.mem_of_find?_eq_some hf, rfl⟩

/-- One `updateSuggestionScore` call preserves the score floor. -/
theorem updateSuggestionScore_preserves_floor (st : SuggestionSystemState)
    (sid trig : String) (delta : Int) (h : allScoresAtLeastOne st.memory) :
    allScoresAtLeastOne (updateSuggestionScore st sid trig delta).memory := by
  unfold updateSuggestionScore
  rcases hm : memGet st.memory trig with _ | suggestions
  · simpa [hm] using h
  · rcases hf : suggestions.find? (fun s => s.id == sid) with _ | found
    · simp only [hm, hf]
      exact h
    · simp only [hm, hf]
      intro e he s hs
      rcases mem_updateFirst _ _ _ _ he with he' | ⟨y, hy, rfl⟩
      · exact h e he' s hs
      · rcases mem_updateFirst _ _ _ _ hs with hs' | ⟨z, hz, rfl⟩
        · obtain ⟨entry, hentry, hsnd⟩ := memGet_mem hm
          exact h entry hentry s (hsnd ▸ hs')
        · exact le_max_left 1 (z.score + delta)

/-- C8: starting from a memory whose scores are all at least 1, any
sequence of `updateSuggestionScore` calls with arbitrary deltas keeps
every score at least 1. -/
theorem C8_score_floor (st : SuggestionSystemState)
    (calls : List (String × String × Int)) (h : allScoresAtLeastOne st.memory) :
    allScoresAtLeastOne (runScoreUpdates st calls).memory := by
  induction calls generalizing st with
  | nil => exact h
  | cons c cs ih =>
    exact ih (updateSuggestionScore st c.1 c.2.1 c.2.2)
      (updateSuggestionScore_preserves_floor st c.1 c.2.1 c.2.2 h)

/-- Witness for C8: a dislike with delta −100 on a score-10 suggestion
still leaves every score at least 1. -/
theorem C8_score_floor_witness :
    allScoresAtLeastOne
      (runScoreUpdates
        ⟨[("t", [⟨"s1", "t", "code", 10⟩])], [], 0⟩
        [("s1", "t", -100)]).memory :=
  C8_score_floor _ _ (by decide)

/-- A suggestion returned by the weighted walk is an element of the list
it walked. -/
theorem walkWeights_mem :
    ∀ (point : ℚ) (l : List ProactiveSuggestion) (s : ProactiveSuggestion),
      walkWeights point l = some s → s ∈ l := by
  intro point l
  induction l generalizing point with
  | nil => intro s h; simp [walkWeights] at h
  | cons a l ih =>
    intro s h
    simp only [walkWeights] at h
    by_cases hc : point - (a.score : ℚ) ≤ 0
    · rw [if_pos hc] at h
      cases h
      exact List.mem_cons_self a l
    · rw [if_neg hc] at h
      exact List.mem_cons_of_mem a (ih _ s h)

/-- C9: `selectSuggestion` never returns a disliked snippet, and when the
dislike filter leaves exactly one suggestion whose score is at least 1
(which the floor guarantees), that suggestion is returned for every
possible random draw in `[0, 1)`. -/
theorem C9_select_respects_dislikes (randomDraw : ℚ)
    (suggestions : List ProactiveSuggestion) (disliked : List String) :
    (∀ s, selectSuggestion randomDraw suggestions disliked = some s →
      disliked.contains s.suggestion = false) ∧
    (∀ s₀, suggestions.filter (fun s => !(disliked.contains s.suggestion)) = [s₀] →
      1 ≤ s₀.score → 0 ≤ randomDraw → randomDraw < 1 →
      selectSuggestion randomDraw suggestions disliked = some s₀) := by
  constructor
  · intro s hs
    simp only [selectSuggestion] at hs
    by_cases hv : suggestions.filter (fun s => !(disliked.contains s.suggestion)) = []
    · rw [if_pos hv] at hs
      cases hs
    · rw [if_neg hv] at hs
      have hmem : s ∈ suggestions.filter (fun s => !(disliked.contains s.suggestion)) := by
        rcases hw : walkWeights
            (randomDraw *
              (suggestions.filter
                (fun s => !(disliked.contains s.suggestion))).foldl
                (fun sum s => sum + (s.score : ℚ)) 0)
            (suggestions.filter (fun s => !(disliked.contains s.suggestion)))
          with _ | t
        · rw [hw] at hs
          exact List.mem_of_mem_head? hs
        · rw [hw] at hs
          cases hs
          exact walkWeights_mem _ _ _ hw
      have := List.of_mem_filter hmem
      simpa using this
  · intro s₀ hfil hscore hr0 hr1
    simp only [selectSuggestion, hfil]
    rw [if_neg (by simp)]
    have hpos : (0 : ℚ) < (s₀.score : ℚ) := by
      exact_mod_cast lt_of_lt_of_le Int.zero_lt_one hscore
    have ht : randomDraw * ((0 : ℚ) + (s₀.score : ℚ)) - (s₀.score : ℚ) ≤ 0 := by
      nlinarith
    simp only [List.foldl_cons, List.foldl_nil, walkWeights]
    rw [if_pos ht]

/-- Witness for C9: with one eligible score-10 suggestion and an empty
dislike set, draw 0 selects it. -/
theorem C9_select_respects_dislikes_witness :
    selectSuggestion 0 [⟨"s1", "t", "code", 10⟩] [] =
      some ⟨"s1", "t", "code", 10⟩ :=
  (C9_select_respects_dislikes 0 [⟨"s1", "t", "code", 10⟩] []).2
    ⟨"s1", "t", "code", 10⟩ (by decide) (by decide) (by decide) (by decide)

/-- C10: an `updateSuggestionScore` call whose trigger has no entry, or
whose id is not in the trigger's list, leaves the whole suggestion state —
memory, scores, dislike set and persistence count — unchanged, and returns
normally. -/
theorem C10_update_missing_is_noop (st : SuggestionSystemState)
    (sid trig : String) (delta : Int)
    (h : memGet st.memory trig = none ∨
      ∃ l, memGet st.memory trig = some l ∧
        l.find? (fun s => s.id == sid) = none) :
    updateSuggestionScore st sid trig delta = st := by
  unfold updateSuggestionScore
  rcases h with h | ⟨l, hl, hf⟩
  · rw [h]
  · simp only [hl, hf]

/-- Witness for C10: updating an id that is absent from the trigger's list
changes nothing. -/
theorem C10_update_missing_is_noop_witness :
    updateSuggestionScore
      ⟨[("t", [⟨"s1", "t", "code", 10⟩])], [], 0⟩ "zz" "t" (-1) =
      ⟨[("t", [⟨"s1", "t", "code", 10⟩])], [], 0⟩ :=
  C10_update_missing_is_noop _ "zz" "t" (-1)
    (Or.inr ⟨[⟨"s1", "t", "code", 10⟩], rfl, rfl⟩)
